import Mathlib

/-!
Verification development for the Sub-rename-anime repository.

The Python sources (renamer.py, anime_renamer.py, anilist_api.py, cache.py)
are shallowly embedded below: pure functions become Lean functions, the
stateful recursive season-graph traversal threads its state explicitly, and
the external collaborators (the anitopy tokenizer, the filesystem, the remote
listing, the metadata HTTP endpoint and the hashlib digest) are parameters of
the embedding.  Machine integers are modelled by Int (Python integers are
unbounded, so no wrap-around is needed).  Code that can raise an uncaught
exception is modelled with Except; code that catches and logs returns its
fallback value, exactly as the source does.
-/

namespace SubRename

/-! ### Python string and os.path helpers

These model the Python standard-library primitives the repository calls:
os.path.basename / dirname / join / splitext (POSIX flavour), str.lower,
str.strip, int(...), sorted(...), and the 02d format padding.  They are the
collaborators of the embedded code, translated to total Lean functions.
-/

/-- Characters of the POSIX path separator test: c is the separator. -/
def isSep (c : Char) : Bool := c = '/'

/-- os.path.basename for POSIX paths: everything after the last slash. -/
def pyBasename (s : String) : String :=
  let rec go : List Char → List Char → List Char
    | acc, [] => acc
    | acc, c :: rest => if isSep c then go rest rest else go acc rest
  String.mk (go s.data s.data)

/-- os.path.dirname for POSIX paths, as posixpath.dirname behaves: the part
up to the last slash, with trailing slashes stripped unless the whole head
consists of slashes. -/
def pyDirname (s : String) : String :=
  let head := s.data.take (s.data.length - (pyBasename s).data.length)
  if head.isEmpty then ""
  else if head.all (fun c => c = '/') then String.mk head
  else String.mk ((head.reverse.dropWhile (fun c => c = '/')).reverse)

/-- os.path.join for two POSIX components, as posixpath.join behaves:
an absolute second component wins, an empty first component disappears,
otherwise a single slash is inserted unless the first ends with one. -/
def pyJoin (a b : String) : String :=
  if b.data.head? = some '/' then b
  else if a = "" then b
  else if a.data.getLast? = some '/' then a ++ b
  else a ++ "/" ++ b

/-- os.path.splitext: splits off the extension at the last dot of the
basename, except when the basename consists only of leading dots before that
dot (so .bashrc has no extension). -/
def splitext (s : String) : String × String :=
  let name := (pyBasename s).data
  let rec lastDot : List Char → Option Nat → Nat → Option Nat
    | [], acc, _ => acc
    | c :: rest, acc, i => lastDot rest (if c = '.' then some i else acc) (i + 1)
  match lastDot name none 0 with
  | none => (s, "")
  | some d =>
      -- index of the first character of the basename that is not a dot
      let rec firstNonDot : List Char → Nat → Option Nat
        | [], _ => none
        | c :: rest, i => if c = '.' then firstNonDot rest (i + 1) else some i
      match firstNonDot name 0 with
      | none => (s, "")
      | some f =>
          if d ≤ f then (s, "")
          else
            let cut := s.data.length - name.length + d
            (String.mk (s.data.take cut), String.mk (s.data.drop cut))

/-- ASCII whitespace, as str.strip and int() discard around their input. -/
def isPyWhitespace (c : Char) : Bool :=
  c = ' ' ∨ c = '\t' ∨ c = '\n' ∨ c = '\r' ∨ c.toNat = 11 ∨ c.toNat = 12

/-- Strip surrounding whitespace from a character list. -/
def stripChars (l : List Char) : List Char :=
  ((l.dropWhile isPyWhitespace).reverse.dropWhile isPyWhitespace).reverse

/-- Python str.strip with no arguments: trim surrounding whitespace. -/
def pyStrip (s : String) : String := String.mk (stripChars s.data)

/-- ASCII lowering of one character. -/
def lowerChar (c : Char) : Char :=
  if 65 ≤ c.toNat ∧ c.toNat ≤ 90 then Char.ofNat (c.toNat + 32) else c

/-- Python str.lower restricted to the ASCII range the repository compares
against (file extensions, the ova and special markers, language tags). -/
def pyLower (s : String) : String := String.mk (s.data.map lowerChar)

/-- Is c an ASCII decimal digit? -/
def isDigitChar (c : Char) : Bool := 48 ≤ c.toNat ∧ c.toNat ≤ 57

/-- The value of a non-empty all-digit character list. -/
def digitsVal (l : List Char) : Option Nat :=
  match l with
  | [] => none
  | _ => go l 0
where
  go : List Char → Nat → Option Nat
    | [], acc => some acc
    | c :: rest, acc =>
      if isDigitChar c then go rest (acc * 10 + (c.toNat - 48)) else none

/-- Python int(string): optional surrounding whitespace, optional sign,
decimal digits; None when the string does not parse (a ValueError in the
source, handled at each call site exactly as the source handles it). -/
def pyInt (s : String) : Option Int :=
  match stripChars s.data with
  | '-' :: rest => (digitsVal rest).map (fun n => -(n : Int))
  | '+' :: rest => (digitsVal rest).map (fun n => (n : Int))
  | l => (digitsVal l).map (fun n => (n : Int))

/-- Code-point lexicographic comparison of character lists, the order
Python compares strings by. -/
def charListLe : List Char → List Char → Bool
  | [], _ => true
  | _ :: _, [] => false
  | a :: as, b :: bs =>
    if a.toNat < b.toNat then true
    else if b.toNat < a.toNat then false
    else charListLe as bs

/-- Python string comparison a less-or-equal b. -/
def pyStrLe (a b : String) : Bool := charListLe a.data b.data

/-- Python truthiness of an optional string: None and the empty string are
falsy. -/
def pyFalsy : Option String → Bool
  | none => true
  | some s => s = ""

/-- Python `a or b` on optional strings (an empty string in a is skipped). -/
def pyOr (a b : Option String) : Option String :=
  match a with
  | none => b
  | some s => if s = "" then b else some s

/-- Stable insertion of x into acc, placing x after every element y with
le y x.  Building a sort from this by a left fold reproduces the output of a
stable sort such as Python's sorted. -/
def stableInsert (le : α → α → Bool) (x : α) : List α → List α
  | [] => [x]
  | y :: ys => if le y x then y :: stableInsert le x ys else x :: y :: ys

/-- Python sorted(list, key=...): a stable sort by the total preorder le. -/
def pySorted (le : α → α → Bool) (l : List α) : List α :=
  l.foldl (fun acc x => stableInsert le x acc) []

/-- Python format spec 02d: pad the decimal rendering to width two with a
leading zero. -/
def pad2 (n : Int) : String :=
  let s := toString n
  if s.length < 2 then "0" ++ s else s

/-! ### cache.py

The on-disk cache directory is modelled as an association list from file
name (the cache key) to the decoded JSON record, a timestamp paired with the
payload; reads take the most recent write because writes are consed on the
front.  The wall clock is an explicit Int parameter.
-/

/-- Modelled from the spec: hashlib.md5 hexdigest (an external library that
is not part of this repository).  The spec only requires a deterministic
stable hash; the model keeps the interface of md5 - a pure function of the
query producing exactly 32 hexadecimal characters - without reproducing the
md5 mixing rounds.  None of the theorems below depends on which 32-character
digest is produced, only on determinism and on the fixed output length. -/
def md5_hexdigest (s : String) : String :=
  let h : Nat := s.data.foldl (fun a c => a * 131 + c.toNat + 17) 5381
  String.mk ((List.range 32).map (fun i => (Nat.digitChar ((h / 16 ^ i) % 16))))

/-- cache.get_cache_key: prefix underscore digest dot json. -/
def get_cache_key (pre query : String) : String :=
  pre ++ "_" ++ md5_hexdigest query ++ ".json"

/-- One decoded cache file: the JSON object written by save_to_cache. -/
structure CacheEntry (α : Type) where
  timestamp : Int
  payload : α
deriving DecidableEq, Repr

/-- The cache directory: file name to decoded content, newest write first. -/
def CacheStore (α : Type) : Type := List (String × CacheEntry α)

/-- Lookup of a file in the cache directory (newest write shadows older). -/
def cacheLookup (store : CacheStore α) (key : String) : Option (CacheEntry α) :=
  match store.find? (fun kv => kv.1 = key) with
  | some kv => some kv.2
  | none => none

/-- cache.get_cached_data at wall-clock time now with the configured
duration: the payload if the file exists and is not expired, None otherwise
(missing directory, missing file and expiry all yield None in the source). -/
def get_cached_data (now duration : Int) (store : CacheStore α) (key : String) :
    Option α :=
  match cacheLookup store key with
  | none => none
  | some e => if now - e.timestamp < duration then some e.payload else none

/-- cache.save_to_cache at wall-clock time now: write the timestamped
payload under the key. -/
def save_to_cache (now : Int) (store : CacheStore α) (key : String) (payload : α) :
    CacheStore α :=
  (key, { timestamp := now, payload := payload }) :: store

/-- cache.get_cache_duration with the default configuration: 24 hours in
seconds (config.DEFAULT_CONFIG anilist_cache duration = 24, times 3600). -/
def default_cache_duration : Int := 24 * 60 * 60

/-! ### anilist_api.py data shapes

A relation edge as produced by the season query of anilist_api.py: the
relation type plus the fields of the related node the code reads (id and
format; the node's episode count is carried along as the query fetches it).
-/

structure RelationEdge where
  relationType : String
  nodeId : Int
  nodeFormat : String
  nodeEpisodes : Option Int
deriving DecidableEq, Repr

/-- One season descriptor as built by anilist_api.get_anime_season_data:
id, title (romaji or english, possibly absent), episode count (null for an
unknown length) and the raw relation edges of the node. -/
structure Season where
  id : Int
  title : Option String := none
  episodes : Option Int := none
  relations : List RelationEdge := []
deriving DecidableEq, Repr

/-! ### anime_renamer.py -/

/-- The seasons sorted as in calculate_season_episode:
sorted(season_data, key=lambda s: s.get('id', 0)), a stable sort by id. -/
def sortSeasonsById (l : List Season) : List Season :=
  pySorted (fun a b => a.id ≤ b.id) l

/-- The walk of calculate_season_episode over the sorted seasons, carrying
the running episode offset and the 0-based enumeration index.  A season of
unknown length absorbs any remaining absolute episode greater than the
offset; otherwise the walk breaks to the fallback, modelled by none.  The
fallback when all seasons are exhausted is also none (the source returns the
pair (None, None) there). -/
def seasonWalk (absolute : Int) : Int → Nat → List Season → Option (Int × Int)
  | _, _, [] => none
  | offset, i, s :: rest =>
    match s.episodes with
    | none =>
      if offset < absolute then some ((i : Int) + 1, absolute - offset) else none
    | some n =>
      if absolute ≤ offset + n then some ((i : Int) + 1, absolute - offset)
      else seasonWalk absolute (offset + n) (i + 1) rest

/-- anime_renamer.calculate_season_episode: absolute episode plus season
list to (season, season-relative episode); none models the (None, None)
fallback of the source. -/
def calculate_season_episode (absolute : Int) (season_data : List Season) :
    Option (Int × Int) :=
  if season_data.isEmpty ∨ absolute ≤ 0 then some (1, absolute)
  else seasonWalk absolute 0 0 (sortSeasonsById season_data)

/-- The characters anime_renamer.sanitize_filename strips. -/
def invalidFilenameChars : List Char := ['<', '>', ':', '"', '/', '\\', '|', '?', '*']

/-- anime_renamer.sanitize_filename: drop the characters invalid in
filenames. -/
def sanitize_filename (s : String) : String :=
  String.mk (s.data.filter (fun c => ¬ c ∈ invalidFilenameChars))

/-- Does the character list start with a bracketed eng or jpn tag
(case-insensitively)?  If so, return the lowered tag. -/
def langAt : List Char → Option String
  | a :: b :: c :: d :: e :: _ =>
    if a = '[' ∧ e = ']' then
      let tag := pyLower (String.mk [b, c, d])
      if tag = "eng" ∨ tag = "jpn" then some tag else none
    else none
  | _ => none

/-- anime_renamer.get_language_tag: the leftmost bracketed eng or jpn tag of
the filename, rendered lowercase with a leading space, or the empty
string. -/
def get_language_tag (filename : String) : String :=
  go filename.data
where
  go : List Char → String
    | [] => ""
    | c :: rest =>
      match langAt (c :: rest) with
      | some tag => " [" ++ tag ++ "]"
      | none => go rest

/-- The version-suffix search of anime_renamer.get_unique_filepath.  The
source loops while True incrementing the version; the model carries fuel for
that loop and returns none when the fuel runs out (the source would still be
searching), which no theorem below relies on: every statement supplies
enough fuel to reach a free name. -/
def uniqueLoop (fs : String → Bool) (base ext : String) : Nat → Nat → Option String
  | 0, _ => none
  | fuel + 1, version =>
    let new_filepath := base ++ "_v" ++ toString version ++ ext
    if fs new_filepath = false then some new_filepath
    else uniqueLoop fs base ext fuel (version + 1)

/-- anime_renamer.get_unique_filepath over a filesystem modelled as the
existence predicate fs (os.path.exists). -/
def get_unique_filepath (fuel : Nat) (fs : String → Bool) (filepath : String) :
    Option String :=
  if fs filepath = false then some filepath
  else uniqueLoop fs (splitext filepath).1 (splitext filepath).2 fuel 2

/-- The version-suffix search of anime_renamer.get_unique_rclone_filepath
over the remote listing of the destination directory. -/
def uniqueRcloneLoop (existing : List String) (dir_path bbase ext : String) :
    Nat → Nat → Option String
  | 0, _ => none
  | fuel + 1, version =>
    let new_filename := bbase ++ "_v" ++ toString version ++ ext
    if new_filename ∈ existing then uniqueRcloneLoop existing dir_path bbase ext fuel (version + 1)
    else some (pyJoin dir_path new_filename)

/-- anime_renamer.get_unique_rclone_filepath, with the rclone_lsf result for
the destination directory passed in as the list existing. -/
def get_unique_rclone_filepath (fuel : Nat) (existing : List String) (filepath : String) :
    Option String :=
  if pyBasename filepath ∈ existing then
    uniqueRcloneLoop existing (pyDirname filepath)
      (pyBasename (splitext filepath).1) (splitext filepath).2 fuel 2
  else some filepath

/-! ### anime_renamer.process_folder (local branch)

The embedding covers the renaming decisions of process_folder for a local
directory: which (source, destination) operations the run announces.  The
anitopy tokenizer, the filesystem and the configured rename template are
parameters; the season data is passed in as the value get_anime_season_data
returned.  Side channels that do not affect the operation list are not
modelled: logging, tqdm, .nfo export, os.makedirs, and the actual execution
of the move (the model corresponds to the dry-run plan; in a non-dry run the
operations are also executed as they are produced).  An uncaught Python
exception (int on a non-numeric season token, or formatting a missing
title) is modelled as Except.error.
-/

/-- The tokenizer record anitopy.parse returns, restricted to the keys the
repository reads.  A missing key is none. -/
structure AnitopyResult where
  anime_title : Option String := none
  episode_number : Option String := none
  anime_season : Option String := none
  anime_type : Option String := none
deriving DecidableEq, Repr

/-- The title object of an AniList media entry. -/
structure AnimeTitle where
  romaji : Option String := none
  english : Option String := none
  native : Option String := none
deriving DecidableEq, Repr

/-- The selected AniList match passed into process_folder. -/
structure AnimeData where
  id : Int
  title : AnimeTitle
deriving DecidableEq, Repr

/-- anime_data.title.get(conf.title_language): dictionary access by the
configured language key. -/
def titleGet (t : AnimeTitle) (lang : String) : Option String :=
  if lang = "romaji" then t.romaji
  else if lang = "english" then t.english
  else if lang = "native" then t.native
  else none

/-- The per-show key used for processed_episodes: the AniList id when a
match was selected, otherwise the parsed title. -/
abbrev ShowKey := Sum Int (Option String)

/-- The inputs of one process_folder invocation. -/
structure FolderEnv where
  anitopy_parse : String → AnitopyResult
  fs : String → Bool
  folder_path : String
  videos : List String
  subtitles : List String
  anime_data : Option AnimeData
  season_data : List Season
  title_language : String
  rename_template : String → Int → Int → String
  bundle_ova : Bool
  fuel : Nat

/-- The state process_folder threads through its file loop: the episode keys
already handled, the remaining subtitle pool (the source removes matched
subtitles from files, which later iterations observe), and the announced
operations. -/
structure FolderRun where
  processed_episodes : List (ShowKey × Int)
  subtitles : List String
  operations : List (String × String)
deriving Repr

/-- The inner subtitle loop of process_folder: every remaining subtitle
whose absolute episode maps to the current (season, episode) is renamed next
to the video and removed from the pool; a ValueError on the episode token is
caught and the subtitle kept.  Returns the kept pool and the announced
subtitle operations, in source order. -/
def processSubs (env : FolderEnv) (season episode : Int) (new_base : String) :
    List String → Except Unit (List String × List (String × String))
  | [] => .ok ([], [])
  | sub_path :: rest =>
    let parsed_sub := env.anitopy_parse (pyBasename sub_path)
    match pyInt ((parsed_sub.episode_number).getD "-1") with
    | none => do
        let (kept, ops) ← processSubs env season episode new_base rest
        .ok (sub_path :: kept, ops)
    | some sub_abs =>
      match calculate_season_episode sub_abs env.season_data with
      | some (ss, se) =>
        if ss = season ∧ se = episode then
          let sub_ext := (splitext sub_path).2
          let tag := get_language_tag (pyBasename sub_path)
          let new_sub_name := new_base ++ tag ++ sub_ext
          let dest_folder :=
            if env.bundle_ova ∧ season = 0 then pyJoin env.folder_path "S00_OVAs"
            else env.folder_path
          match get_unique_filepath env.fuel env.fs (pyJoin dest_folder new_sub_name) with
          | none => .error ()
          | some new_sub_path => do
              let (kept, ops) ← processSubs env season episode new_base rest
              .ok (kept, (sub_path, new_sub_path) :: ops)
        else do
          let (kept, ops) ← processSubs env season episode new_base rest
          .ok (sub_path :: kept, ops)
      | none => do
          -- the source compares the (None, None) pair against ints: no match
          let (kept, ops) ← processSubs env season episode new_base rest
          .ok (sub_path :: kept, ops)

/-- One iteration of the process_folder file loop. -/
def fileStep (env : FolderEnv) (st : FolderRun) (file_path : String) :
    Except Unit FolderRun :=
  let original_filename := pyBasename file_path
  let parsed_file := env.anitopy_parse original_filename
  match pyInt ((parsed_file.episode_number).getD "0") with
  | none => .ok st
  | some absolute_episode =>
    let show_id : ShowKey :=
      match env.anime_data with
      | some ad => .inl ad.id
      | none => .inr parsed_file.anime_title
    if st.processed_episodes.contains (show_id, absolute_episode) then .ok st
    else
      let inferred : Except Unit (Option (Int × Int)) :=
        if ¬ pyFalsy parsed_file.anime_type ∧
            (pyLower ((parsed_file.anime_type).getD "") = "ova" ∨
             pyLower ((parsed_file.anime_type).getD "") = "special") then
          .ok (some (0, absolute_episode))
        else if ¬ pyFalsy parsed_file.anime_season then
          match pyInt ((parsed_file.anime_season).getD "") with
          | some s => .ok (some (s, absolute_episode))
          | none => .error ()
        else if ¬ env.season_data.isEmpty then
          .ok (calculate_season_episode absolute_episode env.season_data)
        else .ok (some (1, absolute_episode))
      match inferred with
      | .error () => .error ()
      | .ok none => .ok st
      | .ok (some (season, episode)) =>
        let titleOpt : Option String :=
          match env.anime_data with
          | some ad =>
            pyOr (titleGet ad.title env.title_language)
              (pyOr ad.title.romaji (pyOr ad.title.english ad.title.native))
          | none => some ((parsed_file.anime_title).getD "Unknown Title")
        match titleOpt with
        | none => .error ()
        | some title =>
          let new_base_name := env.rename_template (sanitize_filename title) season episode
          let videoOps : Except Unit (List (String × String)) :=
            match env.videos.find? (fun v => pyBasename v == original_filename) with
            | none => .ok []
            | some video_file =>
              let video_ext := (splitext video_file).2
              let language_tag := get_language_tag original_filename
              let new_video_name := new_base_name ++ language_tag ++ video_ext
              let dest_folder :=
                if env.bundle_ova ∧ season = 0 then pyJoin env.folder_path "S00_OVAs"
                else env.folder_path
              match get_unique_filepath env.fuel env.fs (pyJoin dest_folder new_video_name) with
              | none => .error ()
              | some new_video_path => .ok [(video_file, new_video_path)]
          match videoOps with
          | .error () => .error ()
          | .ok vops =>
            match processSubs env season episode new_base_name st.subtitles with
            | .error () => .error ()
            | .ok (kept, sops) =>
              .ok { processed_episodes := (show_id, absolute_episode) :: st.processed_episodes,
                    subtitles := kept,
                    operations := st.operations ++ vops ++ sops }

/-- anime_renamer.process_folder, local branch: iterate over the sorted
union of video and subtitle files, announcing rename operations. -/
def process_folder (env : FolderEnv) : Except Unit FolderRun :=
  let all_files := pySorted pyStrLe (env.videos ++ env.subtitles)
  all_files.foldlM (fileStep env)
    { processed_episodes := [], subtitles := env.subtitles, operations := [] }

/-! ### anilist_api.get_anime_season_data

The AniList endpoint is modelled as a finite association list from media id
to the decoded Media object of the season query; an id that is absent
models a query failure for that node (a RequestException, or a KeyError or
TypeError while destructuring the response - all three take the same
except-branch in the source and return the empty list).  The mutable
fetched_ids set and the on-disk cache are threaded through an explicit
state.  The wall clock is frozen at now for the duration of the run (the
source stamps each cache write with time.time(); entries written during the
run are therefore unexpired while it lasts whenever the configured duration
is positive).  The while-True-free recursion of the source has no intrinsic
structural measure, so the model carries fuel; the fuel-independence theorem
below shows any fuel beyond the number of unfetched graph nodes gives the
same result, which is the termination argument.
-/

/-- One AniList media node as the season query decodes it. -/
structure Media where
  id : Int
  titleRomaji : Option String := none
  titleEnglish : Option String := none
  episodes : Option Int := none
  edges : List RelationEdge := []
deriving DecidableEq, Repr

/-- The metadata source: id to decoded node; none is a query failure. -/
abbrev Graph : Type := List (Int × Media)

/-- Response lookup for one id. -/
def lookupGraph (g : Graph) (anime_id : Int) : Option Media :=
  match g.find? (fun kv => kv.1 == anime_id) with
  | some kv => some kv.2
  | none => none

/-- The state the traversal threads: the fetched_ids set and the cache
directory (payloads are season lists). -/
structure ResolverState where
  fetched : List Int
  cache : CacheStore (List Season)

/-- The edge filter of get_anime_season_data: SEQUEL or PREQUEL relations to
TV, OVA or ONA nodes are followed. -/
def followedEdge (e : RelationEdge) : Prop :=
  (e.relationType = "SEQUEL" ∨ e.relationType = "PREQUEL") ∧
    (e.nodeFormat = "TV" ∨ e.nodeFormat = "OVA" ∨ e.nodeFormat = "ONA")

instance : DecidablePred followedEdge := fun e => by unfold followedEdge; infer_instance

/-- The edge loop of get_anime_season_data, abstracted over the recursive
resolution of a related id (the loop walks the edges of one node, extending
the season accumulator with the resolution of every followed edge and
threading the state). -/
def seasonEdges (recur : Int → ResolverState → List Season × ResolverState) :
    List RelationEdge → List Season × ResolverState → List Season × ResolverState
  | [], acc => acc
  | e :: rest, (acc, st) =>
    if followedEdge e then
      let (r, st') := recur e.nodeId st
      seasonEdges recur rest (acc ++ r, st')
    else seasonEdges recur rest (acc, st)

/-- anilist_api.get_anime_season_data: resolve the season graph reachable
from anime_id.  Checks the cache first (a non-empty fresh payload is
returned as is, per the truthiness test of the source), then the fetched_ids
guard, then queries the node, marks it fetched, recurses over its SEQUEL and
PREQUEL edges with TV, OVA or ONA format, and caches the collected list.
The source recursion carries no structural measure, so the model recurses on
fuel; the fuel-stabilization theorem below discharges termination. -/
def get_anime_season_data (g : Graph) (now duration : Int) :
    Nat → Bool → Int → ResolverState → List Season × ResolverState
  | 0, _, _, st => ([], st)
  | fuel + 1, force_refresh, anime_id, st =>
    let cache_key := get_cache_key "season" (toString anime_id)
    let cached : List Season :=
      if force_refresh then []
      else (get_cached_data now duration st.cache cache_key).getD []
    if ¬ cached.isEmpty then (cached, st)
    else if st.fetched.contains anime_id then ([], st)
    else
      match lookupGraph g anime_id with
      | none => ([], st)
      | some data =>
        let st1 : ResolverState := { st with fetched := anime_id :: st.fetched }
        let self : Season :=
          { id := data.id, title := pyOr data.titleRomaji data.titleEnglish,
            episodes := data.episodes, relations := data.edges }
        let (seasons, st2) :=
          seasonEdges (fun i s => get_anime_season_data g now duration fuel force_refresh i s)
            data.edges ([self], st1)
        (seasons, { st2 with cache := save_to_cache now st2.cache cache_key seasons })

/-! ### renamer.py -/

/-- renamer.VIDEO_EXTENSIONS. -/
def VIDEO_EXTENSIONS : List String := [".mkv", ".mp4", ".avi", ".mov"]

/-- The record renamer.parse_filename builds for one file. -/
structure PFile where
  title : String
  season : Int
  episode : Int
  extension : String
  original_filename : String
  is_video : Bool
deriving DecidableEq, Repr

/-- renamer.parse_filename over the tokenizer collaborator: None (ok none)
when the tokenizer yields a falsy title or episode number; a record
otherwise.  An int conversion failure on the season or episode token is an
uncaught ValueError in the source, modelled as Except.error. -/
def parse_filename (anitopy_parse : String → AnitopyResult) (filepath : String) :
    Except Unit (Option PFile) :=
  let filename := pyBasename filepath
  let parsed_data := anitopy_parse filename
  let title := parsed_data.anime_title
  let ep_num := parsed_data.episode_number
  if pyFalsy title ∨ pyFalsy ep_num then .ok none
  else
    let season := (parsed_data.anime_season).getD "01"
    let extension := (splitext filename).2
    match pyInt season, pyInt (ep_num.getD "") with
    | some s, some e =>
        .ok (some { title := pyStrip (title.getD ""), season := s, episode := e,
                    extension := extension, original_filename := filepath,
                    is_video := VIDEO_EXTENSIONS.contains (pyLower extension) })
    | _, _ => .error ()

/-- The per-season maximum episode number observed in files, starting from
the defaultdict zero of the source. -/
def maxEpisode (files : List PFile) (s : Int) : Int :=
  files.foldl (fun m f => if f.season = s ∧ m < f.episode then f.episode else m) 0

/-- renamer.calculate_season_offsets: walk the observed seasons in
ascending order accumulating the total of the per-season maxima; each season
is mapped to the total before it. -/
def calculate_season_offsets (files : List PFile) : List (Int × Int) :=
  let keys := pySorted (fun a b => decide (a ≤ b)) (files.map (fun f => f.season)).eraseDups
  (keys.foldl (fun (acc : List (Int × Int) × Int) s =>
      (acc.1 ++ [(s, acc.2)], acc.2 + maxEpisode files s)) ([], 0)).1

/-- offsets.get(season, 0). -/
def offsetsGet (offsets : List (Int × Int)) (s : Int) : Int :=
  match offsets.find? (fun kv => kv.1 == s) with
  | some kv => kv.2
  | none => 0

/-- The subtitle scan of renamer.find_smart_match: the first subtitle that
matches the video exactly, or failing that clause on the same subtitle, is
the season-1 carrier of the video's absolute episode number. -/
def smartMatchLoop (video : PFile) (absolute : Int) : List PFile → Option PFile
  | [] => none
  | sub :: rest =>
    if sub.season = video.season ∧ sub.episode = video.episode then some sub
    else if sub.season = 1 ∧ sub.episode = absolute then some sub
    else smartMatchLoop video absolute rest

/-- renamer.find_smart_match. -/
def find_smart_match (video : PFile) (subtitles : List PFile)
    (offsets : List (Int × Int)) : Option PFile :=
  smartMatchLoop video (offsetsGet offsets video.season + video.episode) subtitles

/-- The first loop of process_show_group_local and process_show_group_rclone:
consume a smart match from the pool for each video, or add the video to the
unmatched list. -/
def matchPass (offsets : List (Int × Int)) :
    List PFile → List PFile → List PFile × List PFile
  | [], subtitles => ([], subtitles)
  | video :: vs, subtitles =>
    match find_smart_match video subtitles offsets with
    | some m => matchPass offsets vs (subtitles.erase m)
    | none =>
      let (u, s) := matchPass offsets vs subtitles
      (video :: u, s)

/-- The lexicographic (season, episode) order both group processors sort
by. -/
def bySeasonEpisode (a b : PFile) : Bool :=
  decide (a.season < b.season ∨ (a.season = b.season ∧ a.episode ≤ b.episode))

/-- The two rename entries one positional pair produces: the video and the
subtitle are both renamed to the base built from the subtitle's season and
episode, each skipped when its path would not change.  The local variant
titles the base from the video record, the rclone variant from the group's
show title.  The model treats os.rename as succeeding (the source logs and
continues on failure; the emitted plan is the subject here). -/
def pairOps (useVideoTitle : Bool) (show_title : String) (video sub : PFile) :
    List (String × String) :=
  let new_base_name := (if useVideoTitle then video.title else show_title) ++
    " - S" ++ pad2 sub.season ++ "E" ++ pad2 sub.episode
  let new_video_path :=
    pyJoin (pyDirname video.original_filename) (new_base_name ++ video.extension)
  let new_sub_path :=
    pyJoin (pyDirname sub.original_filename) (new_base_name ++ sub.extension)
  (if video.original_filename ≠ new_video_path then
    [(pyBasename video.original_filename, pyBasename new_video_path)] else []) ++
  (if sub.original_filename ≠ new_sub_path then
    [(pyBasename sub.original_filename, pyBasename new_sub_path)] else [])

/-- Shared body of the two group processors; useVideoTitle selects the
local naming behaviour. -/
def process_show_group (useVideoTitle : Bool) (show_title : String)
    (files : List PFile) : List (String × String) × List String :=
  let videos := pySorted bySeasonEpisode (files.filter (fun f => f.is_video))
  let subtitles := files.filter (fun f => ¬ f.is_video)
  if videos.isEmpty then ([], [])
  else
    let season_offsets := calculate_season_offsets videos
    let (unmatched_videos, subs) := matchPass season_offsets videos subtitles
    if 0 < unmatched_videos.length ∧ unmatched_videos.length = subs.length then
      let sorted_videos := pySorted (fun a b => decide (a.episode ≤ b.episode)) unmatched_videos
      let sorted_subtitles := pySorted bySeasonEpisode subs
      let pairs := sorted_videos.zip sorted_subtitles
      let renamed := pairs.foldl (fun acc vm => acc ++ pairOps useVideoTitle show_title vm.1 vm.2) []
      let newly_matched := pairs.map (fun vm => vm.1)
      (renamed,
        ((unmatched_videos.filter (fun v => ¬ v ∈ newly_matched)).map
          (fun v => v.original_filename)))
    else ([], unmatched_videos.map (fun v => v.original_filename))

/-- renamer.process_show_group_local. -/
def process_show_group_local (show_title : String) (files : List PFile) :
    List (String × String) × List String :=
  process_show_group true show_title files

/-- renamer.process_show_group_rclone (the remote name only affects the
executed move command, not the planned operations). -/
def process_show_group_rclone (show_title : String) (files : List PFile) :
    List (String × String) × List String :=
  process_show_group false show_title files

/-! ### Specification-side definitions

The definitions below are written from the sentences of the specification
and the claims, to be compared against the embedded source functions in the
theorems.
-/

/-- Whether the walk of the episode mapper stops at a season s reached with
running offset off: a known episode count covers the absolute episode, or
an unknown-length season open-endedly absorbs anything beyond the offset. -/
def seasonTrigger (absolute off : Int) (s : Season) : Prop :=
  match s.episodes with
  | some n => absolute ≤ off + n
  | none => off < absolute

/-- The offset accumulated over a prefix of seasons none of which triggers:
each must have a known episode count that the absolute episode exceeds
(together with the offset so far); none if some prefix season triggers. -/
def seasonSteps (absolute : Int) : Int → List Season → Option Int
  | off, [] => some off
  | off, s :: rest =>
    match s.episodes with
    | some n => if absolute ≤ off + n then none else seasonSteps absolute (off + n) rest
    | none => none

/-- The destination name with a version suffix, as the claim describes the
collision policy for get_unique_filepath. -/
def versionName (filepath : String) (v : Nat) : String :=
  (splitext filepath).1 ++ "_v" ++ toString v ++ (splitext filepath).2

/-- The versioned file name the rclone variant probes against the remote
listing. -/
def rcloneVersionName (filepath : String) (v : Nat) : String :=
  pyBasename (splitext filepath).1 ++ "_v" ++ toString v ++ (splitext filepath).2

/-- The sorted videos of one show group. -/
def groupVideos (files : List PFile) : List PFile :=
  pySorted bySeasonEpisode (files.filter (fun f => f.is_video))

/-- The subtitle pool of one show group. -/
def groupSubtitles (files : List PFile) : List PFile :=
  files.filter (fun f => ¬ f.is_video)

/-- The unmatched videos and the remaining subtitle pool after the exact
and absolute-offset tiers of one group. -/
def afterSmartTiers (files : List PFile) : List PFile × List PFile :=
  matchPass (calculate_season_offsets (groupVideos files)) (groupVideos files)
    (groupSubtitles files)

/-- The positional fallback plan the claim describes: sort the unmatched
videos by episode and the subtitles by (season, episode) and emit the rename
entries of the index-for-index pairs. -/
def positionalPlan (useVideoTitle : Bool) (show_title : String)
    (unmatched subs : List PFile) : List (String × String) :=
  ((pySorted (fun a b => decide (a.episode ≤ b.episode)) unmatched).zip
      (pySorted bySeasonEpisode subs)).foldl
    (fun acc vm => acc ++ pairOps useVideoTitle show_title vm.1 vm.2) []

/-- The number of graph nodes not yet in the fetched set: the measure that
bounds the recursion depth of the season-graph traversal. -/
def unfetchedCount (g : Graph) (fetched : List Int) : Nat :=
  ((g.map Prod.fst).toFinset.filter (fun k => k ∉ fetched)).card

/-! ### Concrete fixtures for examples and counterexamples -/

/-- The two-season fixture of the specification scenarios: ids 1 and 2 with
twelve known episodes each. -/
def twoTwelves : List Season :=
  [{ id := 1, episodes := some 12 }, { id := 2, episodes := some 12 }]

/-- A SEQUEL edge to a TV node, for the graph fixtures. -/
def seqEdge (i : Int) : RelationEdge :=
  { relationType := "SEQUEL", nodeId := i, nodeFormat := "TV", nodeEpisodes := some 12 }

/-- A diamond relation graph: 1 relates to 2 and 3, both of which relate
to 4. -/
def diamondGraph : Graph :=
  [(1, { id := 1, titleRomaji := some "A", episodes := some 12, edges := [seqEdge 2, seqEdge 3] }),
   (2, { id := 2, titleRomaji := some "B", episodes := some 12, edges := [seqEdge 4] }),
   (3, { id := 3, titleRomaji := some "C", episodes := some 12, edges := [seqEdge 4] }),
   (4, { id := 4, titleRomaji := some "D", episodes := some 12, edges := [] })]

/-- A two-node cycle: 1 relates to 2 and 2 back to 1. -/
def cycleGraph : Graph :=
  [(1, { id := 1, titleRomaji := some "A", episodes := some 12, edges := [seqEdge 2] }),
   (2, { id := 2, titleRomaji := some "B", episodes := some 12, edges := [seqEdge 1] })]

/-- A root whose queries for node 2 fail (the id is absent from the graph)
while node 3 resolves. -/
def partialGraph : Graph :=
  [(1, { id := 1, titleRomaji := some "A", episodes := some 12, edges := [seqEdge 2, seqEdge 3] }),
   (3, { id := 3, titleRomaji := some "C", episodes := some 12, edges := [] })]

/-- The all-empty initial resolver state: no fetched ids, empty cache. -/
def freshState : ResolverState := { fetched := [], cache := [] }

/-- A video record for the matcher fixtures. -/
def videoFix (s e : Int) (p : String) : PFile :=
  { title := "T", season := s, episode := e, extension := ".mkv",
    original_filename := p, is_video := true }

/-- A subtitle record for the matcher fixtures. -/
def subFix (s e : Int) (p : String) : PFile :=
  { title := "T", season := s, episode := e, extension := ".srt",
    original_filename := p, is_video := false }

/-- The tokenizer output for the idempotency scenario of
tests/test_idempotency.py: title Show, episode 01, season 01. -/
def tokenShow : String → AnitopyResult := fun _ =>
  { anime_title := some "Show", episode_number := some "01", anime_season := some "01" }

/-- The process_folder environment of the idempotency scenario: one video
already named exactly per the template, the destination it resolves to being
its own path (the only existing file). -/
def envIdem : FolderEnv :=
  { anitopy_parse := tokenShow
    fs := fun p => p == "/path/to/Show - S01E01.mkv"
    folder_path := "/path/to"
    videos := ["/path/to/Show - S01E01.mkv"]
    subtitles := []
    anime_data := some { id := 1, title := { romaji := some "Show", english := some "Show" } }
    season_data := []
    title_language := "romaji"
    rename_template := fun t s e => t ++ " - S" ++ pad2 s ++ "E" ++ pad2 e
    bundle_ova := false
    fuel := 10 }

/-! ## Theorems -/

/-! ### C2: the offset-accumulation walk of calculate_season_episode -/

theorem seasonWalk_of_steps (absolute : Int) (pre : List Season) :
    ∀ (off0 off : Int) (i : Nat) (s : Season) (rest : List Season),
      seasonSteps absolute off0 pre = some off →
      seasonTrigger absolute off s →
      seasonWalk absolute off0 i (pre ++ s :: rest) =
        some ((i : Int) + pre.length + 1, absolute - off) := by
  induction pre with
  | nil =>
    intro off0 off i s rest hsteps htrig
    simp only [seasonSteps] at hsteps
    cases hsteps
    cases hs : s.episodes with
    | none =>
      have hlt : off0 < absolute := by
        simpa [seasonTrigger, hs] using htrig
      simp [seasonWalk, hs, hlt]
    | some n =>
      have hle : absolute ≤ off0 + n := by
        simpa [seasonTrigger, hs] using htrig
      simp [seasonWalk, hs, hle]
  | cons p pre ih =>
    intro off0 off i s rest hsteps htrig
    cases hp : p.episodes with
    | none => simp [seasonSteps, hp] at hsteps
    | some n =>
      by_cases hle : absolute ≤ off0 + n
      · simp [seasonSteps, hp, hle] at hsteps
      · have hsteps' : seasonSteps absolute (off0 + n) pre = some off := by
          simpa [seasonSteps, hp, hle] using hsteps
        have hrec := ih (off0 + n) off (i + 1) s rest hsteps' htrig
        simp only [List.cons_append, seasonWalk, hp, if_neg hle, List.append_eq]
        rw [hrec]
        refine congrArg some (Prod.ext ?_ rfl)
        push_cast [List.length_cons]
        ring

/-- C2: calculate_season_episode implements the offset-accumulation
mapping: empty seasons or a non-positive absolute episode yield
(1, absoluteEpisode); otherwise, walking the seasons sorted by id with a
running offset, the first season that covers the absolute episode (a known
count with absoluteEpisode at most offset plus count, or an unknown count
with absoluteEpisode beyond the offset) at 1-indexed position i yields
(i, absoluteEpisode - offset); in particular on seasons
[(id 1, 12 episodes), (id 2, 12 episodes)] episode 13 maps to (2, 1) and
episode 24 to (2, 12). -/
theorem C2_calculate_season_episode_offset_walk :
    (∀ (absolute : Int) (sd : List Season), (sd = [] ∨ absolute ≤ 0) →
      calculate_season_episode absolute sd = some (1, absolute)) ∧
    (∀ (absolute : Int) (sd : List Season) (pre : List Season) (s : Season)
        (rest : List Season) (off : Int),
      0 < absolute →
      sortSeasonsById sd = pre ++ s :: rest →
      seasonSteps absolute 0 pre = some off →
      seasonTrigger absolute off s →
      calculate_season_episode absolute sd =
        some ((pre.length : Int) + 1, absolute - off)) ∧
    (calculate_season_episode 13 twoTwelves = some (2, 1) ∧
     calculate_season_episode 24 twoTwelves = some (2, 12)) := by
  refine ⟨?_, ?_, by decide, by decide⟩
  · intro absolute sd h
    rcases h with h | h
    · simp [calculate_season_episode, h]
    · simp [calculate_season_episode, h]
  · intro absolute sd pre s rest off hpos hsort hsteps htrig
    have hne : ¬ sd.isEmpty := by
      intro he
      rw [List.isEmpty_iff] at he
      subst he
      simp [sortSeasonsById, pySorted] at hsort
    have hwalk := seasonWalk_of_steps absolute pre 0 off 0 s rest hsteps htrig
    simp only [calculate_season_episode, hne, false_or, if_neg (by omega : ¬ absolute ≤ 0),
      Bool.false_eq_true, hsort, hwalk]
    norm_num

/-- Witness for C2: the offset walk applied to the two-season fixture at
absolute episode 13, entering the second season with offset 12. -/
theorem C2_witness : calculate_season_episode 13 twoTwelves = some (2, 1) := by
  have h := C2_calculate_season_episode_offset_walk.2.1 13 twoTwelves
    [{ id := 1, episodes := some 12 }] { id := 2, episodes := some 12 } [] 12
    (by norm_num) (by decide) (by decide) (by simp only [seasonTrigger]; norm_num)
  simpa using h

/-! ### C6: monotonicity of the episode mapper -/

theorem seasonWalk_fst_ge (absolute : Int) :
    ∀ (l : List Season) (off : Int) (i : Nat) (p : Int × Int),
      seasonWalk absolute off i l = some p → (i : Int) + 1 ≤ p.1 := by
  intro l
  induction l with
  | nil => intro off i p h; simp [seasonWalk] at h
  | cons s rest ih =>
    intro off i p h
    cases hs : s.episodes with
    | none =>
      by_cases hlt : off < absolute
      · simp only [seasonWalk, hs, if_pos hlt, Option.some.injEq] at h
        rw [← h]
      · simp [seasonWalk, hs, hlt] at h
    | some n =>
      by_cases hle : absolute ≤ off + n
      · simp only [seasonWalk, hs, if_pos hle, Option.some.injEq] at h
        rw [← h]
      · have hrec := ih (off + n) (i + 1) p (by simpa [seasonWalk, hs, hle] using h)
        push_cast at hrec
        linarith

theorem seasonWalk_first_val (absolute : Int) (l : List Season) :
    ∀ (off : Int) (i : Nat) (e : Int),
      seasonWalk absolute off i l = some ((i : Int) + 1, e) → e = absolute - off := by
  intro off i e h
  cases l with
  | nil => simp [seasonWalk] at h
  | cons s rest =>
    cases hs : s.episodes with
    | none =>
      by_cases hlt : off < absolute
      · simp only [seasonWalk, hs, if_pos hlt, Option.some.injEq, Prod.mk.injEq] at h
        exact h.2.symm
      · simp [seasonWalk, hs, hlt] at h
    | some n =>
      by_cases hle : absolute ≤ off + n
      · simp only [seasonWalk, hs, if_pos hle, Option.some.injEq, Prod.mk.injEq] at h
        exact h.2.symm
      · have h' : seasonWalk absolute (off + n) (i + 1) rest = some ((i : Int) + 1, e) := by
          simpa [seasonWalk, hs, hle] using h
        have := seasonWalk_fst_ge absolute rest (off + n) (i + 1) _ h'
        push_cast at this
        simp at this

theorem seasonWalk_mono (a b : Int) (hab : a ≤ b) :
    ∀ (l : List Season) (off : Int) (i : Nat) (pa pb : Int × Int),
      seasonWalk a off i l = some pa → seasonWalk b off i l = some pb →
      pa.1 ≤ pb.1 ∧ (pa.1 = pb.1 → pa.2 ≤ pb.2) := by
  intro l
  induction l with
  | nil => intro off i pa pb h; simp [seasonWalk] at h
  | cons s rest ih =>
    intro off i pa pb ha hb
    cases hs : s.episodes with
    | none =>
      by_cases hlt : off < a
      · have hltb : off < b := lt_of_lt_of_le hlt hab
        simp only [seasonWalk, hs, if_pos hlt, if_pos hltb, Option.some.injEq] at ha hb
        rw [← ha, ← hb]
        exact ⟨le_refl _, fun _ => sub_le_sub_right hab off⟩
      · simp [seasonWalk, hs, hlt] at ha
    | some n =>
      by_cases ha1 : a ≤ off + n
      · by_cases hb1 : b ≤ off + n
        · simp only [seasonWalk, hs, if_pos ha1, if_pos hb1, Option.some.injEq] at ha hb
          rw [← ha, ← hb]
          exact ⟨le_refl _, fun _ => sub_le_sub_right hab off⟩
        · have hb' : seasonWalk b (off + n) (i + 1) rest = some pb := by
            simpa [seasonWalk, hs, hb1] using hb
          have hge := seasonWalk_fst_ge b rest (off + n) (i + 1) pb hb'
          simp only [seasonWalk, hs, if_pos ha1, Option.some.injEq] at ha
          rw [← ha]
          push_cast at hge
          constructor
          · simp only
            linarith
          · intro heq
            simp only at heq
            linarith
      · have hb1 : ¬ b ≤ off + n := by omega
        have ha' : seasonWalk a (off + n) (i + 1) rest = some pa := by
          simpa [seasonWalk, hs, ha1] using ha
        have hb' : seasonWalk b (off + n) (i + 1) rest = some pb := by
          simpa [seasonWalk, hs, hb1] using hb
        exact ih (off + n) (i + 1) pa pb ha' hb'

/-- C6: for a fixed season list the mapper is monotone in the absolute
episode: the season component never decreases as the absolute episode
grows, and two absolute episodes landing in the same season keep their
order in the season-relative episode. -/
theorem C6_calculate_season_episode_monotone :
    ∀ (sd : List Season) (a b sa ea sb eb : Int), a ≤ b →
      calculate_season_episode a sd = some (sa, ea) →
      calculate_season_episode b sd = some (sb, eb) →
      sa ≤ sb ∧ (sa = sb → ea ≤ eb) := by
  intro sd a b sa ea sb eb hab ha hb
  by_cases h1 : sd.isEmpty = true ∨ a ≤ 0 <;> by_cases h2 : sd.isEmpty = true ∨ b ≤ 0
  · simp only [calculate_season_episode, if_pos h1, if_pos h2, Option.some.injEq,
      Prod.mk.injEq] at ha hb
    rw [← ha.1, ← hb.1, ← ha.2, ← hb.2]
    exact ⟨le_refl _, fun _ => hab⟩
  · have hne : ¬ sd.isEmpty := fun he => h2 (Or.inl he)
    have hbpos : 0 < b := by
      rcases not_or.mp h2 with ⟨_, hb0⟩
      omega
    simp only [calculate_season_episode, if_pos h1, Option.some.injEq, Prod.mk.injEq] at ha
    have hwb : seasonWalk b 0 0 (sortSeasonsById sd) = some (sb, eb) := by
      simpa [calculate_season_episode, hne, not_or.mp h2] using hb
    have hge := seasonWalk_fst_ge b (sortSeasonsById sd) 0 0 (sb, eb) hwb
    simp only at hge
    norm_num at hge
    have ha0 : a ≤ 0 := by
      rcases h1 with h | h
      · exact absurd h (by simpa using hne)
      · exact h
    constructor
    · rw [← ha.1]; exact hge
    · intro heq
      have hsb1 : sb = 1 := by rw [← heq, ← ha.1]
      have hval : eb = b - 0 := by
        apply seasonWalk_first_val b (sortSeasonsById sd) 0 0 eb
        rw [hwb, hsb1]
        norm_num
      rw [← ha.2, hval]
      omega
  · exfalso
    have hne : ¬ sd.isEmpty := fun he => h1 (Or.inl he)
    rcases h2 with h | h
    · exact hne h
    · rcases not_or.mp h1 with ⟨_, ha0⟩
      omega
  · have hwa : seasonWalk a 0 0 (sortSeasonsById sd) = some (sa, ea) := by
      simpa [calculate_season_episode, not_or.mp h1] using ha
    have hwb : seasonWalk b 0 0 (sortSeasonsById sd) = some (sb, eb) := by
      simpa [calculate_season_episode, not_or.mp h2] using hb
    exact seasonWalk_mono a b hab (sortSeasonsById sd) 0 0 (sa, ea) (sb, eb) hwa hwb

/-- Witness for C6: episodes 13 and 24 of the two-season fixture land in
season 2 with relative episodes in order. -/
theorem C6_witness : (2 : Int) ≤ 2 ∧ ((2 : Int) = 2 → (1 : Int) ≤ 12) :=
  C6_calculate_season_episode_monotone twoTwelves 13 24 2 1 2 12 (by norm_num)
    (by decide) (by decide)

/-! ### C9: cache keys and cache expiry -/

theorem md5_hexdigest_length (s : String) : (md5_hexdigest s).data.length = 32 := by
  simp [md5_hexdigest]

/-- C9: get_cache_key is a deterministic function of the operation kind and
the query (equal inputs give equal keys, distinct kinds give distinct keys
whatever the queries, because the digest between the kind and the .json
suffix has a fixed 32-character length), and a payload saved at time t is
returned by get_cached_data exactly while the elapsed time stays below the
configured duration, and None from the moment it reaches it. -/
theorem C9_cache_key_roundtrip_expiry :
    (∀ p q : String, get_cache_key p q = get_cache_key p q) ∧
    (∀ p₁ p₂ q₁ q₂ : String, p₁ ≠ p₂ → get_cache_key p₁ q₁ ≠ get_cache_key p₂ q₂) ∧
    (∀ (α : Type) (store : CacheStore α) (key : String) (payload : α)
        (t now duration : Int), now - t < duration →
      get_cached_data now duration (save_to_cache t store key payload) key = some payload) ∧
    (∀ (α : Type) (store : CacheStore α) (key : String) (payload : α)
        (t now duration : Int), duration ≤ now - t →
      get_cached_data now duration (save_to_cache t store key payload) key = none) := by
  refine ⟨fun p q => rfl, ?_, ?_, ?_⟩
  · intro p1 p2 q1 q2 hne heq
    have hd := congrArg String.data heq
    simp only [get_cache_key, String.data_append, List.append_assoc] at hd
    have hlen := congrArg List.length hd
    simp only [List.length_append, md5_hexdigest_length] at hlen
    have hplen : p1.data.length = p2.data.length := by omega
    obtain ⟨hp, _⟩ := List.append_inj hd hplen
    exact hne (String.ext hp)
  · intro α store key payload t now duration h
    simp [get_cached_data, save_to_cache, cacheLookup, List.find?, h]
  · intro α store key payload t now duration h
    simp [get_cached_data, save_to_cache, cacheLookup, List.find?, not_lt.mpr h]

/-- Witness for C9: distinct operation kinds give distinct keys, a payload
saved 50 seconds ago is still returned under the default 24-hour duration,
and one saved exactly the duration ago is not. -/
theorem C9_witness :
    get_cache_key "search" "q" ≠ get_cache_key "season" "q" ∧
    get_cached_data 100 default_cache_duration
      (save_to_cache 50 ([] : CacheStore Nat) "k" 7) "k" = some 7 ∧
    get_cached_data (50 + default_cache_duration) default_cache_duration
      (save_to_cache 50 ([] : CacheStore Nat) "k" 7) "k" = none :=
  ⟨C9_cache_key_roundtrip_expiry.2.1 "search" "season" "q" "q" (by decide),
   C9_cache_key_roundtrip_expiry.2.2.1 Nat [] "k" 7 50 100 default_cache_duration
     (by norm_num [default_cache_duration]),
   C9_cache_key_roundtrip_expiry.2.2.2 Nat [] "k" 7 50 (50 + default_cache_duration)
     default_cache_duration (by omega)⟩

/-! ### C10: the parse_filename contract -/

/-- C10: parse_filename returns None exactly when the tokenizer yields a
falsy (absent or empty) title or episode number; when it returns a record,
the season defaults to 1 in the absence of a season token and is_video holds
exactly when the lower-cased extension is one of the four video
extensions. -/
theorem C10_parse_filename_contract :
    ∀ (tok : String → AnitopyResult) (fp : String),
      (parse_filename tok fp = .ok none ↔
        (pyFalsy (tok (pyBasename fp)).anime_title = true ∨
         pyFalsy (tok (pyBasename fp)).episode_number = true)) ∧
      (∀ r : PFile, parse_filename tok fp = .ok (some r) →
        ((tok (pyBasename fp)).anime_season = none → r.season = 1) ∧
        (r.is_video = true ↔ pyLower r.extension ∈ VIDEO_EXTENSIONS)) := by
  intro tok fp
  by_cases hc : pyFalsy (tok (pyBasename fp)).anime_title = true ∨
      pyFalsy (tok (pyBasename fp)).episode_number = true
  · have hres : parse_filename tok fp = .ok none := by
      simp only [parse_filename]
      rw [if_pos hc]
    refine ⟨by simp [hres, hc], ?_⟩
    intro r hr
    rw [hres] at hr
    simp at hr
  · rcases hs : pyInt (((tok (pyBasename fp)).anime_season).getD "01") with _ | s <;>
      rcases he : pyInt (((tok (pyBasename fp)).episode_number).getD "") with _ | e
    all_goals
      first
      | (have hval : parse_filename tok fp = .error () := by
          simp only [parse_filename, if_neg hc, hs, he]
         refine ⟨by simp [hval, hc], ?_⟩
         intro r hr
         rw [hval] at hr
         simp at hr)
      | skip
    · have hval : parse_filename tok fp =
          .ok (some { title := pyStrip (((tok (pyBasename fp)).anime_title).getD ""),
                      season := s, episode := e,
                      extension := (splitext (pyBasename fp)).2,
                      original_filename := fp,
                      is_video := VIDEO_EXTENSIONS.contains
                        (pyLower (splitext (pyBasename fp)).2) }) := by
        simp only [parse_filename, if_neg hc, hs, he]
      refine ⟨by simp [hval, hc], ?_⟩
      intro r hr
      rw [hval] at hr
      simp only [Except.ok.injEq, Option.some.injEq] at hr
      subst hr
      refine ⟨?_, ?_⟩
      · intro hnone
        rw [hnone] at hs
        have h01 : pyInt ((none : Option String).getD "01") = some 1 := by decide
        rw [h01] at hs
        injection hs with h
        exact h.symm
      · exact List.elem_iff

/-- Witness for C10: a tokenizer yielding title Show, episode 01 and no
season token produces a record with season 1 whose is_video matches the
extension list. -/
theorem C10_witness :
    (({ title := "Show", season := 1, episode := 1, extension := ".mkv",
        original_filename := "Show - 01.mkv", is_video := true } : PFile).season = 1) ∧
    (({ title := "Show", season := 1, episode := 1, extension := ".mkv",
        original_filename := "Show - 01.mkv", is_video := true } : PFile).is_video = true ↔
      pyLower ".mkv" ∈ VIDEO_EXTENSIONS) := by
  have h := (C10_parse_filename_contract
    (fun _ => { anime_title := some "Show", episode_number := some "01" })
    "Show - 01.mkv").2
    { title := "Show", season := 1, episode := 1, extension := ".mkv",
      original_filename := "Show - 01.mkv", is_video := true }
    rfl
  exact ⟨h.1 rfl, h.2⟩

/-! ### C7: collision avoidance by version suffixing -/

theorem uniqueLoop_finds (fs : String → Bool) (base ext : String) :
    ∀ (fuel v k : Nat), v ≤ k → k - v < fuel →
      (∀ j, v ≤ j → j < k → fs (base ++ "_v" ++ toString j ++ ext) = true) →
      fs (base ++ "_v" ++ toString k ++ ext) = false →
      uniqueLoop fs base ext fuel v = some (base ++ "_v" ++ toString k ++ ext) := by
  intro fuel
  induction fuel with
  | zero => intro v k h1 h2 _ _; omega
  | succ fuel ih =>
    intro v k hvk hfuel hocc hfree
    by_cases hvkeq : v = k
    · subst hvkeq
      simp [uniqueLoop, hfree]
    · have hvlt : v < k := lt_of_le_of_ne hvk hvkeq
      have hv : fs (base ++ "_v" ++ toString v ++ ext) = true := hocc v (le_refl v) hvlt
      simp only [uniqueLoop, hv]
      rw [if_neg (by simp)]
      exact ih (v + 1) k (by omega) (by omega)
        (fun j hj1 hj2 => hocc j (by omega) hj2) hfree

theorem uniqueRcloneLoop_finds (existing : List String) (dir_path bbase ext : String) :
    ∀ (fuel v k : Nat), v ≤ k → k - v < fuel →
      (∀ j, v ≤ j → j < k → (bbase ++ "_v" ++ toString j ++ ext) ∈ existing) →
      (bbase ++ "_v" ++ toString k ++ ext) ∉ existing →
      uniqueRcloneLoop existing dir_path bbase ext fuel v =
        some (pyJoin dir_path (bbase ++ "_v" ++ toString k ++ ext)) := by
  intro fuel
  induction fuel with
  | zero => intro v k h1 h2 _ _; omega
  | succ fuel ih =>
    intro v k hvk hfuel hocc hfree
    by_cases hvkeq : v = k
    · subst hvkeq
      simp [uniqueRcloneLoop, hfree]
    · have hvlt : v < k := lt_of_le_of_ne hvk hvkeq
      have hv : (bbase ++ "_v" ++ toString v ++ ext) ∈ existing := hocc v (le_refl v) hvlt
      simp only [uniqueRcloneLoop, if_pos hv]
      exact ih (v + 1) k (by omega) (by omega)
        (fun j hj1 hj2 => hocc j (by omega) hj2) hfree

/-- C7: an unoccupied destination is kept as is; an occupied one (local
existence check, or membership of the remote listing for the rclone
variant) is suffixed _v2, _v3, ... in increasing order until the first free
version k, which is returned - and that returned path is free.  In
particular with X.mkv occupied the plan is X_v2.mkv, and with X_v2.mkv also
occupied, X_v3.mkv. -/
theorem C7_unique_filepath_suffix_search :
    (∀ (fs : String → Bool) (fuel : Nat) (fp : String),
      fs fp = false → get_unique_filepath fuel fs fp = some fp) ∧
    (∀ (fs : String → Bool) (fuel k : Nat) (fp : String),
      fs fp = true → 2 ≤ k → k ≤ fuel + 1 →
      (∀ j, 2 ≤ j → j < k → fs (versionName fp j) = true) →
      fs (versionName fp k) = false →
      get_unique_filepath fuel fs fp = some (versionName fp k) ∧
        fs (versionName fp k) = false) ∧
    (∀ (existing : List String) (fuel k : Nat) (fp : String),
      pyBasename fp ∈ existing → 2 ≤ k → k ≤ fuel + 1 →
      (∀ j, 2 ≤ j → j < k → rcloneVersionName fp j ∈ existing) →
      rcloneVersionName fp k ∉ existing →
      get_unique_rclone_filepath fuel existing fp =
        some (pyJoin (pyDirname fp) (rcloneVersionName fp k)) ∧
        rcloneVersionName fp k ∉ existing) ∧
    (get_unique_filepath 10 (fun p => p == "X.mkv") "X.mkv" = some "X_v2.mkv" ∧
      get_unique_filepath 10 (fun p => p == "X.mkv" || p == "X_v2.mkv") "X.mkv" =
        some "X_v3.mkv") := by
  refine ⟨?_, ?_, ?_, by decide, by decide⟩
  · intro fs fuel fp h
    simp [get_unique_filepath, h]
  · intro fs fuel k fp hocc0 hk2 hkfuel hocc hfree
    refine ⟨?_, hfree⟩
    simp only [get_unique_filepath, hocc0]
    rw [if_neg (by simp)]
    exact uniqueLoop_finds fs (splitext fp).1 (splitext fp).2 fuel 2 k hk2 (by omega)
      (fun j h1 h2 => hocc j h1 h2) hfree
  · intro existing fuel k fp hocc0 hk2 hkfuel hocc hfree
    refine ⟨?_, hfree⟩
    simp only [get_unique_rclone_filepath, if_pos hocc0]
    exact uniqueRcloneLoop_finds existing (pyDirname fp) (pyBasename (splitext fp).1)
      (splitext fp).2 fuel 2 k hk2 (by omega)
      (fun j h1 h2 => hocc j h1 h2) hfree

/-- Witness for C7: with X.mkv and X_v2.mkv both occupied, the suffix
search lands on the free X_v3.mkv. -/
theorem C7_witness :
    get_unique_filepath 10 (fun p => p == "X.mkv" || p == "X_v2.mkv") "X.mkv" =
      some (versionName "X.mkv" 3) ∧
    (fun p => p == "X.mkv" || p == "X_v2.mkv") (versionName "X.mkv" 3) = false :=
  C7_unique_filepath_suffix_search.2.1 (fun p => p == "X.mkv" || p == "X_v2.mkv")
    10 3 "X.mkv" (by decide) (by omega) (by omega)
    (fun j h1 h2 => by
      have : j = 2 := by omega
      subst this
      decide)
    (by decide)

/-! ### C3: exact tier versus absolute-offset tier in find_smart_match -/

/-- C3 counterexample: the pool holds a subtitle with exactly the video's
season and episode, yet find_smart_match returns the earlier pool entry
that matches only by absolute-offset (season 1, episode 13 = offset 12 of
season 2 plus episode 1), so the absolute rule fires for a video that does
have an exact match in the pool. -/
theorem C3_counterexample :
    (subFix 2 1 "d/exact.srt") ∈ [subFix 1 13 "d/abs13.srt", subFix 2 1 "d/exact.srt"] ∧
    (subFix 2 1 "d/exact.srt").season = (videoFix 2 1 "d/v201.mkv").season ∧
    (subFix 2 1 "d/exact.srt").episode = (videoFix 2 1 "d/v201.mkv").episode ∧
    find_smart_match (videoFix 2 1 "d/v201.mkv")
      [subFix 1 13 "d/abs13.srt", subFix 2 1 "d/exact.srt"]
      (calculate_season_offsets [videoFix 1 12 "d/v112.mkv", videoFix 2 1 "d/v201.mkv"]) =
      some (subFix 1 13 "d/abs13.srt") ∧
    (subFix 1 13 "d/abs13.srt").season ≠ (videoFix 2 1 "d/v201.mkv").season := by
  decide

theorem smartMatchLoop_eq_find (video : PFile) (absolute : Int) :
    ∀ subs : List PFile,
      smartMatchLoop video absolute subs =
        subs.find? (fun sub =>
          (sub.season == video.season && sub.episode == video.episode) ||
          (sub.season == 1 && sub.episode == absolute)) := by
  intro subs
  induction subs with
  | nil => rfl
  | cons sub rest ih =>
    by_cases h1 : sub.season = video.season ∧ sub.episode = video.episode
    · simp [smartMatchLoop, h1, List.find?, h1.1, h1.2]
    · by_cases h2 : sub.season = 1 ∧ sub.episode = absolute
      · simp only [smartMatchLoop, if_neg h1, if_pos h2, List.find?]
        have : ((sub.season == video.season && sub.episode == video.episode) ||
            (sub.season == 1 && sub.episode == absolute)) = true := by
          simp [h2.1, h2.2]
        rw [this]
      · simp only [smartMatchLoop, if_neg h1, if_neg h2, List.find?]
        have : ((sub.season == video.season && sub.episode == video.episode) ||
            (sub.season == 1 && sub.episode == absolute)) = false := by
          rw [not_and_or] at h1 h2
          rcases h1 with h1 | h1 <;> rcases h2 with h2 | h2 <;>
            simp [h1, h2]
        rw [this]
        exact ih

/-- C3 (amended): find_smart_match returns the first subtitle in pool
order satisfying the exact rule or the absolute-offset rule; both rules are
tested on each subtitle in turn, so an absolute-offset match earlier in the
pool is consumed even when an exact match exists later (the exact tier has
priority only within one subtitle entry, not across the pool). -/
theorem C3_find_smart_match_first_combined_match :
    ∀ (video : PFile) (subtitles : List PFile) (offsets : List (Int × Int)),
      find_smart_match video subtitles offsets =
        subtitles.find? (fun sub =>
          (sub.season == video.season && sub.episode == video.episode) ||
          (sub.season == 1 &&
            sub.episode == offsetsGet offsets video.season + video.episode)) := by
  intro video subtitles offsets
  exact smartMatchLoop_eq_find video _ subtitles

/-! ### C5: the positional fallback tier trigger -/

/-- C5: the positional fallback runs exactly when, after the exact and
absolute-offset pass, there are unmatched videos and exactly as many
remaining subtitles: in that case the emitted renames are the
index-for-index pairing of the unmatched videos sorted by episode with the
subtitles sorted by (season, episode); in every other case the group emits
no rename operation at all (in this source renames only arise from the
positional tier).  Both group processors share this behaviour. -/
theorem C5_positional_fallback_trigger :
    ∀ (useVideoTitle : Bool) (show_title : String) (files : List PFile),
      ((0 < (afterSmartTiers files).1.length ∧
          (afterSmartTiers files).1.length = (afterSmartTiers files).2.length) →
        (process_show_group useVideoTitle show_title files).1 =
          positionalPlan useVideoTitle show_title (afterSmartTiers files).1
            (afterSmartTiers files).2) ∧
      (¬ (0 < (afterSmartTiers files).1.length ∧
          (afterSmartTiers files).1.length = (afterSmartTiers files).2.length) →
        (process_show_group useVideoTitle show_title files).1 = []) ∧
      process_show_group_local show_title files = process_show_group true show_title files ∧
      process_show_group_rclone show_title files = process_show_group false show_title files := by
  intro u t files
  refine ⟨?_, ?_, rfl, rfl⟩
  · intro hc
    by_cases hv : (pySorted bySeasonEpisode (files.filter (fun f => f.is_video))).isEmpty = true
    · exfalso
      have hempty : pySorted bySeasonEpisode (files.filter (fun f => f.is_video)) = [] :=
        List.isEmpty_iff.mp hv
      have : (afterSmartTiers files).1.length = 0 := by
        simp [afterSmartTiers, groupVideos, hempty, matchPass]
      omega
    · rcases hms : afterSmartTiers files with ⟨unm, subs⟩
      have hms' := hms
      simp only [afterSmartTiers, groupVideos, groupSubtitles] at hms'
      rw [hms] at hc
      simp only at hc
      simp only [process_show_group]
      rw [if_neg hv]
      simp only [hms']
      rw [if_pos hc]
      simp [positionalPlan]
  · intro hc
    by_cases hv : (pySorted bySeasonEpisode (files.filter (fun f => f.is_video))).isEmpty = true
    · simp only [process_show_group]
      rw [if_pos hv]
    · rcases hms : afterSmartTiers files with ⟨unm, subs⟩
      have hms' := hms
      simp only [afterSmartTiers, groupVideos, groupSubtitles] at hms'
      rw [hms] at hc
      simp only at hc
      simp only [process_show_group]
      rw [if_neg hv]
      simp only [hms']
      rw [if_neg hc]

/-- Witness for C5: two unmatched videos and two unmatched subtitles
trigger the positional tier, whose plan pairs them in sorted order. -/
theorem C5_witness :
    (process_show_group true "Show"
      [videoFix 1 1 "d/va.mkv", videoFix 1 2 "d/vb.mkv",
       subFix 3 7 "d/sx.srt", subFix 3 6 "d/sy.srt"]).1 =
    positionalPlan true "Show"
      (afterSmartTiers
        [videoFix 1 1 "d/va.mkv", videoFix 1 2 "d/vb.mkv",
         subFix 3 7 "d/sx.srt", subFix 3 6 "d/sy.srt"]).1
      (afterSmartTiers
        [videoFix 1 1 "d/va.mkv", videoFix 1 2 "d/vb.mkv",
         subFix 3 7 "d/sx.srt", subFix 3 6 "d/sy.srt"]).2 :=
  (C5_positional_fallback_trigger true "Show"
    [videoFix 1 1 "d/va.mkv", videoFix 1 2 "d/vb.mkv",
     subFix 3 7 "d/sx.srt", subFix 3 6 "d/sy.srt"]).1 (by decide)

/-! ### C8: query failure degrades to an empty branch -/

/-- C8: a failing metadata query for a node (the id is absent from the
response graph; request errors and malformed responses take the same
except-branch in the source) makes get_anime_season_data return the empty
list for that branch with the traversal state untouched, provided nothing
fresh is cached for that id; consequently a root whose one related node
fails still resolves its other related node - the partial graph fixture
yields the descriptors of ids 1 and 3 while the failing id 2 contributes
nothing. -/
theorem C8_query_failure_graceful :
    (∀ (g : Graph) (now duration : Int) (fuel : Nat) (fr : Bool) (anime_id : Int)
        (st : ResolverState),
      lookupGraph g anime_id = none →
      (fr = false →
        (get_cached_data now duration st.cache
          (get_cache_key "season" (toString anime_id))).getD [] = []) →
      get_anime_season_data g now duration fuel fr anime_id st = ([], st)) ∧
    ((get_anime_season_data partialGraph 0 default_cache_duration 10 false 1
        freshState).1.map (fun s => s.id) = [1, 3]) := by
  refine ⟨?_, by decide⟩
  intro g now duration fuel fr anime_id st hlook hcache
  cases fuel with
  | zero => simp [get_anime_season_data]
  | succ fuel =>
    cases fr with
    | true => simp [get_anime_season_data, hlook]
    | false => simp [get_anime_season_data, hlook, hcache rfl]

/-- Witness for C8: the failing node 2 of the partial graph resolves to the
empty list leaving the fresh state untouched. -/
theorem C8_witness :
    get_anime_season_data partialGraph 0 default_cache_duration 5 false 2 freshState =
      ([], freshState) :=
  C8_query_failure_graceful.1 partialGraph 0 default_cache_duration 5 false 2 freshState
    (by decide) (fun _ => rfl)

/-! ### C1: idempotence of a run over already-correctly-named files -/

/-- C1: evaluation of process_folder at the scenario of
tests/test_idempotency.py (one video Show - S01E01.mkv already named
exactly per the template, so its source path equals the path the template
resolves).  The run does not emit zero operations: get_unique_filepath
finds the destination occupied - by the source file itself - and the run
announces a rename to the spurious version suffix Show - S01E01_v2.mkv.
The local group processor of renamer.py, by contrast, skips the operation
when old and new paths coincide: its positional pairs contribute no entry
for an identical source and destination. -/
theorem C1_idempotency_failing_input :
    pyJoin envIdem.folder_path
        (envIdem.rename_template (sanitize_filename "Show") 1 1 ++ ".mkv") =
      "/path/to/Show - S01E01.mkv" ∧
    (process_folder envIdem).map (fun r => r.operations) =
      .ok [("/path/to/Show - S01E01.mkv", "/path/to/Show - S01E01_v2.mkv")] ∧
    pairOps true "ignored"
      { title := "Show", season := 1, episode := 1, extension := ".mkv",
        original_filename := "d/Show - S01E01.mkv", is_video := true }
      { title := "Show", season := 1, episode := 1, extension := ".srt",
        original_filename := "d/x.srt", is_video := false } =
      [("x.srt", "Show - S01E01.srt")] :=
  ⟨rfl, rfl, rfl⟩

/-! ### C4: termination and deduplication of the season-graph traversal -/

/-- C4 counterexample: on the diamond graph (1 relates to 2 and 3, both
relate to 4) with the cache enabled (force_refresh false) and a fresh
state, the resolver returns the id sequence [1, 2, 4, 3, 4]: node 4 appears
twice, because its second visit is answered from the cache entry written
when the branch through 2 completed, and the cache is consulted before the
visited set.  The claim that the returned sequence contains each reachable
id at most once on every relation graph is therefore false as stated. -/
theorem C4_counterexample :
    ((get_anime_season_data diamondGraph 0 default_cache_duration 5 false 1
        freshState).1.map (fun s => s.id)) = [1, 2, 4, 3, 4] ∧
    ¬ ((get_anime_season_data diamondGraph 0 default_cache_duration 5 false 1
        freshState).1.map (fun s => s.id)).Nodup := by
  refine ⟨by decide, by decide⟩

theorem seasonEdges_fetched_mono (recur : Int → ResolverState → List Season × ResolverState)
    (H : ∀ i st x, x ∈ st.fetched → x ∈ (recur i st).2.fetched) :
    ∀ (es : List RelationEdge) (acc : List Season) (st : ResolverState) (x : Int),
      x ∈ st.fetched → x ∈ (seasonEdges recur es (acc, st)).2.fetched := by
  intro es
  induction es with
  | nil => intro acc st x hx; simpa [seasonEdges] using hx
  | cons e rest ih =>
    intro acc st x hx
    by_cases hf : followedEdge e
    · simp only [seasonEdges, if_pos hf]
      rcases hr : recur e.nodeId st with ⟨r, st1⟩
      have hx1 : x ∈ st1.fetched := by
        have := H e.nodeId st x hx
        rw [hr] at this
        exact this
      exact ih (acc ++ r) st1 x hx1
    · simp only [seasonEdges, if_neg hf]
      exact ih acc st x hx

theorem gasd_fetched_mono (g : Graph) (now duration : Int) :
    ∀ (fuel : Nat) (fr : Bool) (anime_id : Int) (st : ResolverState) (x : Int),
      x ∈ st.fetched →
      x ∈ (get_anime_season_data g now duration fuel fr anime_id st).2.fetched := by
  intro fuel
  induction fuel with
  | zero => intro fr anime_id st x hx; simpa [get_anime_season_data] using hx
  | succ fuel ih =>
    intro fr anime_id st x hx
    simp only [get_anime_season_data]
    split <;>
      (split
       · exact hx
       · split
         · exact hx
         · split
           · exact hx
           · rename_i data hlook
             rcases hse : seasonEdges
                 (fun i s => get_anime_season_data g now duration fuel fr i s)
                 data.edges
                 ([{ id := data.id, title := pyOr data.titleRomaji data.titleEnglish,
                     episodes := data.episodes, relations := data.edges }],
                  { st with fetched := anime_id :: st.fetched }) with ⟨seasons, st2⟩
             have hx2 : x ∈ st2.fetched := by
               have := seasonEdges_fetched_mono
                 (fun i s => get_anime_season_data g now duration fuel fr i s)
                 (fun i s y hy => ih fr i s y hy)
                 data.edges
                 [{ id := data.id, title := pyOr data.titleRomaji data.titleEnglish,
                    episodes := data.episodes, relations := data.edges }]
                 { st with fetched := anime_id :: st.fetched }
                 x (List.mem_cons_of_mem anime_id hx)
               rw [hse] at this
               exact this
             simp [hse, hx2])

theorem unfetchedCount_le_of_subset (g : Graph) {f1 f2 : List Int}
    (h : ∀ x ∈ f1, x ∈ f2) : unfetchedCount g f2 ≤ unfetchedCount g f1 := by
  apply Finset.card_le_card
  intro k hk
  simp only [Finset.mem_filter] at hk ⊢
  exact ⟨hk.1, fun hmem => hk.2 (h k hmem)⟩

theorem unfetchedCount_lt_insert (g : Graph) (anime_id : Int) (fetched : List Int)
    (hin : anime_id ∈ g.map Prod.fst) (hout : anime_id ∉ fetched) :
    unfetchedCount g (anime_id :: fetched) < unfetchedCount g fetched := by
  apply Finset.card_lt_card
  rw [Finset.ssubset_iff_of_subset]
  · refine ⟨anime_id, ?_, ?_⟩
    · simp only [Finset.mem_filter, List.mem_toFinset]
      exact ⟨hin, hout⟩
    · simp
  · intro k hk
    simp only [Finset.mem_filter, List.mem_cons, not_or] at hk ⊢
    exact ⟨hk.1, hk.2.2⟩

theorem lookupGraph_mem_keys (g : Graph) (anime_id : Int) (data : Media)
    (h : lookupGraph g anime_id = some data) : anime_id ∈ g.map Prod.fst := by
  unfold lookupGraph at h
  rcases hf : g.find? (fun kv => kv.1 == anime_id) with _ | kv
  · rw [hf] at h
    simp at h
  · have hmem := List.mem_of_find?_eq_some hf
    have hpred := List.find?_some hf
    have : kv.1 = anime_id := by simpa using hpred
    rw [← this]
    exact List.mem_map_of_mem Prod.fst hmem

theorem seasonEdges_recur_congr (g : Graph) (m : Nat)
    (recur1 recur2 : Int → ResolverState → List Season × ResolverState)
    (Hmono : ∀ i st x, x ∈ st.fetched → x ∈ (recur1 i st).2.fetched)
    (Hc : ∀ i st, unfetchedCount g st.fetched < m → recur1 i st = recur2 i st) :
    ∀ (es : List RelationEdge) (acc : List Season) (st : ResolverState),
      unfetchedCount g st.fetched < m →
      seasonEdges recur1 es (acc, st) = seasonEdges recur2 es (acc, st) := by
  intro es
  induction es with
  | nil => intro acc st _; rfl
  | cons e rest ih =>
    intro acc st hcount
    by_cases hf : followedEdge e
    · simp only [seasonEdges, if_pos hf]
      rw [← Hc e.nodeId st hcount]
      rcases hr : recur1 e.nodeId st with ⟨r, st1⟩
      have hcount1 : unfetchedCount g st1.fetched < m := by
        have hsub : ∀ x ∈ st.fetched, x ∈ st1.fetched := by
          intro x hx
          have := Hmono e.nodeId st x hx
          rw [hr] at this
          exact this
        exact lt_of_le_of_lt (unfetchedCount_le_of_subset g hsub) hcount
      exact ih (acc ++ r) st1 hcount1
    · simp only [seasonEdges, if_neg hf]
      exact ih acc st hcount

theorem gasd_fuel_mono_le (g : Graph) (now duration : Int) :
    ∀ (m : Nat), ∀ (n : Nat), m ≤ n →
      ∀ (fr : Bool) (anime_id : Int) (st : ResolverState),
        unfetchedCount g st.fetched < m →
        get_anime_season_data g now duration m fr anime_id st =
          get_anime_season_data g now duration n fr anime_id st := by
  intro m
  induction m using Nat.strong_induction_on with
  | _ m sih =>
    intro n hmn fr anime_id st hcount
    match m, n with
    | 0, _ => omega
    | m' + 1, 0 => omega
    | m' + 1, n' + 1 =>
      simp only [get_anime_season_data]
      split <;>
        (split
         · rfl
         · split
           · rfl
           · rename_i hct
             split
             · rfl
             · rename_i data hlook
               have hid : anime_id ∈ g.map Prod.fst := lookupGraph_mem_keys g anime_id data hlook
               have hout : anime_id ∉ st.fetched := fun hmem => hct (List.elem_iff.mpr hmem)
               have hcount1 : unfetchedCount g (anime_id :: st.fetched) < m' := by
                 have := unfetchedCount_lt_insert g anime_id st.fetched hid hout
                 omega
               have hedges := seasonEdges_recur_congr g m'
                 (fun i s => get_anime_season_data g now duration m' fr i s)
                 (fun i s => get_anime_season_data g now duration n' fr i s)
                 (fun i s x hx => gasd_fetched_mono g now duration m' fr i s x hx)
                 (fun i s hs => sih m' (by omega) n' (by omega) fr i s hs)
                 data.edges
                 [{ id := data.id, title := pyOr data.titleRomaji data.titleEnglish,
                    episodes := data.episodes, relations := data.edges }]
                 { st with fetched := anime_id :: st.fetched }
                 hcount1
               rw [hedges])

theorem seasonEdges_nodup_inv (recur : Int → ResolverState → List Season × ResolverState)
    (Hnodup : ∀ i st, (((recur i st).1.map Season.id)).Nodup)
    (Hnew : ∀ i st x, x ∈ (recur i st).1.map Season.id →
      x ∈ (recur i st).2.fetched ∧ x ∉ st.fetched)
    (Hmono : ∀ i st x, x ∈ st.fetched → x ∈ (recur i st).2.fetched) :
    ∀ (es : List RelationEdge) (acc : List Season) (st : ResolverState),
      ((acc.map Season.id).Nodup) →
      (∀ x, x ∈ acc.map Season.id → x ∈ st.fetched) →
      (((seasonEdges recur es (acc, st)).1.map Season.id).Nodup ∧
        (∀ x, x ∈ (seasonEdges recur es (acc, st)).1.map Season.id →
          x ∈ (seasonEdges recur es (acc, st)).2.fetched) ∧
        (∀ x, x ∈ (seasonEdges recur es (acc, st)).1.map Season.id →
          x ∉ acc.map Season.id → x ∉ st.fetched)) := by
  intro es
  induction es with
  | nil =>
    intro acc st hnd hsub
    refine ⟨by simpa [seasonEdges] using hnd, ?_, ?_⟩
    · intro x hx
      exact hsub x (by simpa [seasonEdges] using hx)
    · intro x hx hnx
      exact absurd (by simpa [seasonEdges] using hx) hnx
  | cons e rest ih =>
    intro acc st hnd hsub
    by_cases hf : followedEdge e
    · simp only [seasonEdges, if_pos hf]
      rcases hr : recur e.nodeId st with ⟨r, st1⟩
      have hrnd : (r.map Season.id).Nodup := by
        have := Hnodup e.nodeId st
        rw [hr] at this
        exact this
      have hrnew : ∀ x ∈ r.map Season.id, x ∈ st1.fetched ∧ x ∉ st.fetched := by
        intro x hx
        have := Hnew e.nodeId st x (by rw [hr]; exact hx)
        rw [hr] at this
        exact this
      have hmono1 : ∀ x ∈ st.fetched, x ∈ st1.fetched := by
        intro x hx
        have := Hmono e.nodeId st x hx
        rw [hr] at this
        exact this
      have hnd2 : ((acc ++ r).map Season.id).Nodup := by
        rw [List.map_append, List.nodup_append]
        refine ⟨hnd, hrnd, ?_⟩
        intro x hxa hxr
        exact (hrnew x hxr).2 (hsub x hxa)
      have hsub2 : ∀ x, x ∈ (acc ++ r).map Season.id → x ∈ st1.fetched := by
        intro x hx
        rw [List.map_append, List.mem_append] at hx
        rcases hx with hx | hx
        · exact hmono1 x (hsub x hx)
        · exact (hrnew x hx).1
      obtain ⟨c1, c2, c3⟩ := ih (acc ++ r) st1 hnd2 hsub2
      refine ⟨c1, c2, ?_⟩
      intro x hx hnx
      by_cases hx2 : x ∈ (acc ++ r).map Season.id
      · rw [List.map_append, List.mem_append] at hx2
        rcases hx2 with h | h
        · exact absurd h hnx
        · exact (hrnew x h).2
      · intro hmem
        exact (c3 x hx hx2) (hmono1 x hmem)
    · simp only [seasonEdges, if_neg hf]
      exact ih acc st hnd hsub

theorem gasd_nodup_inv (g : Graph) (now duration : Int)
    (Hg : ∀ (k : Int) (data : Media), lookupGraph g k = some data → data.id = k) :
    ∀ (fuel : Nat) (anime_id : Int) (st : ResolverState),
      (((get_anime_season_data g now duration fuel true anime_id st).1.map Season.id).Nodup) ∧
      (∀ x, x ∈ (get_anime_season_data g now duration fuel true anime_id st).1.map Season.id →
        x ∈ (get_anime_season_data g now duration fuel true anime_id st).2.fetched ∧
          x ∉ st.fetched) := by
  intro fuel
  induction fuel with
  | zero => intro anime_id st; simp [get_anime_season_data]
  | succ fuel ih =>
    intro anime_id st
    simp only [get_anime_season_data]
    split
    case isFalse hfr => exact absurd trivial hfr
    split
    · rename_i hne
      simp at hne
    · split
      · simp
      · rename_i hct
        split
        · simp
        · rename_i data hlook
          have hout : anime_id ∉ st.fetched := fun hmem => hct (List.elem_iff.mpr hmem)
          have hid : data.id = anime_id := Hg anime_id data hlook
          set self : Season := ⟨data.id, pyOr data.titleRomaji data.titleEnglish, data.episodes, data.edges⟩ with hselfdef
          set st1 : ResolverState := ⟨anime_id :: st.fetched, st.cache⟩ with hst1def
          rcases hse : seasonEdges
              (fun i s => get_anime_season_data g now duration fuel true i s)
              data.edges ([self], st1) with ⟨seasons, st2⟩
          have hinv := seasonEdges_nodup_inv
            (fun i s => get_anime_season_data g now duration fuel true i s)
            (fun i s => (ih i s).1)
            (fun i s x hx => (ih i s).2 x hx)
            (fun i s x hx => gasd_fetched_mono g now duration fuel true i s x hx)
            data.edges [self] st1
            (by simp)
            (by
              intro x hx
              simp only [List.map_cons, List.map_nil, List.mem_singleton] at hx
              subst hx
              simp [hselfdef, hst1def, hid])
          rw [hse] at hinv
          obtain ⟨c1, c2, c3⟩ := hinv
          simp only [hse]
          refine ⟨c1, ?_⟩
          intro x hx
          refine ⟨c2 x hx, ?_⟩
          by_cases hxs : x ∈ ([self].map Season.id)
          · simp only [hselfdef, List.map_cons, List.map_nil, List.mem_singleton] at hxs
            subst hxs
            rw [hid]
            exact hout
          · intro hmem
            refine (c3 x hx hxs) ?_
            rw [hst1def]
            exact List.mem_cons_of_mem anime_id hmem

theorem graph_consistent_of_forall (g : Graph)
    (h : ∀ kv ∈ (g : List (Int × Media)), kv.2.id = kv.1) :
    ∀ (k : Int) (data : Media), lookupGraph g k = some data → data.id = k := by
  intro k data hl
  unfold lookupGraph at hl
  rcases hf : g.find? (fun kv => kv.1 == k) with _ | kv
  · rw [hf] at hl
    simp at hl
  · rw [hf] at hl
    simp only [Option.some.injEq] at hl
    have hmem := List.mem_of_find?_eq_some hf
    have hpred := List.find?_some hf
    have hk : kv.1 = k := by simpa using hpred
    rw [← hl, h kv hmem, hk]

/-- C4 (amended): the traversal terminates on every relation graph,
cycles included - any two fuels exceeding the number of unfetched graph
nodes give the same result, so the recursion depth is bounded by the graph
and the value is fuel-independent beyond that bound - and the visited-set
guard makes the returned descriptor sequence contain each id at most once
whenever the cache is bypassed (force_refresh), for any graph whose
responses carry the queried id.  On the two-node cycle the resolver returns
each of the two ids exactly once even with the cache enabled.  (Without
force_refresh the guard can be preempted by the cache, which is consulted
first: see the counterexample, where a completed branch is replayed from
the cache and a diamond graph yields an id twice.) -/
theorem C4_resolver_termination_and_visited_guard :
    (∀ (g : Graph) (now duration : Int) (m n : Nat) (fr : Bool) (anime_id : Int)
        (st : ResolverState),
      unfetchedCount g st.fetched < m → unfetchedCount g st.fetched < n →
      get_anime_season_data g now duration m fr anime_id st =
        get_anime_season_data g now duration n fr anime_id st) ∧
    (∀ (g : Graph) (now duration : Int) (fuel : Nat) (anime_id : Int) (st : ResolverState),
      (∀ (k : Int) (data : Media), lookupGraph g k = some data → data.id = k) →
      ((get_anime_season_data g now duration fuel true anime_id st).1.map
        (fun s => s.id)).Nodup) ∧
    ((get_anime_season_data cycleGraph 0 default_cache_duration 5 false 1
        freshState).1.map (fun s => s.id) = [1, 2]) := by
  refine ⟨?_, ?_, by decide⟩
  · intro g now duration m n fr anime_id st hm hn
    rcases le_total m n with h | h
    · exact gasd_fuel_mono_le g now duration m n h fr anime_id st hm
    · exact (gasd_fuel_mono_le g now duration n m h fr anime_id st hn).symm
  · intro g now duration fuel anime_id st Hg
    exact (gasd_nodup_inv g now duration Hg fuel anime_id st).1

/-- Witness for C4: on the diamond graph any fuel beyond the four nodes
gives the same stable result, and with force_refresh the returned ids are
duplicate-free. -/
theorem C4_witness :
    get_anime_season_data diamondGraph 0 default_cache_duration 5 true 1 freshState =
      get_anime_season_data diamondGraph 0 default_cache_duration 9 true 1 freshState ∧
    ((get_anime_season_data diamondGraph 0 default_cache_duration 6 true 1
        freshState).1.map (fun s => s.id)).Nodup :=
  ⟨C4_resolver_termination_and_visited_guard.1 diamondGraph 0 default_cache_duration
      5 9 true 1 freshState (by decide) (by decide),
   C4_resolver_termination_and_visited_guard.2.1 diamondGraph 0 default_cache_duration
      6 1 freshState (graph_consistent_of_forall diamondGraph (by decide))⟩

end SubRename
